import Mathlib

/-
Verification development for a two-team creature battle engine
(battle resolution, damage computation, turn ordering, switching,
and a heuristic opponent controller).

The definitions below are a shallow embedding of the engine source:
Python floats are modelled as rationals, the global type chart is an
injected function, and every call to the random module is an injected
parameter (an accuracy roll, a damage roll in the nominal range
0.85 to 1.00, or a choice index).  In-place mutation of a Pokemon that
sits inside a team list is modelled by functional update of the list
at the active index; this is observationally equal to the aliased
reference semantics because attacker fields read during a move
(level, stats, stages, name, moves) are never written during a turn.
-/

namespace PB

/-- Truncation toward zero, the behaviour of the Python int() cast
applied to the final damage value. -/
def pyInt (q : ℚ) : ℤ :=
  if q < 0 then -⌊-q⌋ else ⌊q⌋

inductive BattleMode where
  | SINGLE
  | DOUBLE
deriving DecidableEq

structure Move where
  name : String
  type : String
  power : ℕ
  accuracy : ℕ
  pp : ℕ
  damage_class : String
deriving DecidableEq

/-- The stat-stage map is a dict with exactly these seven keys,
initialised to all zeroes. -/
structure StatStages where
  attack : ℤ
  defense : ℤ
  special_attack : ℤ
  special_defense : ℤ
  speed : ℤ
  accuracy : ℤ
  evasion : ℤ
deriving DecidableEq

def zeroStages : StatStages :=
  { attack := 0, defense := 0, special_attack := 0, special_defense := 0,
    speed := 0, accuracy := 0, evasion := 0 }

structure Pokemon where
  name : String
  level : ℕ
  types : List String
  moves : List Move
  hp : ℚ
  attack : ℕ
  defense : ℕ
  special_attack : ℕ
  special_defense : ℕ
  speed : ℕ
  current_hp : ℚ
  status : Option String
  stat_stages : StatStages
deriving DecidableEq

def defaultMove : Move :=
  { name := "", type := "", power := 0, accuracy := 0, pp := 0, damage_class := "" }

def defaultPokemon : Pokemon :=
  { name := "", level := 0, types := [], moves := [], hp := 0, attack := 0,
    defense := 0, special_attack := 0, special_defense := 0, speed := 0,
    current_hp := 0, status := none, stat_stages := zeroStages }

/-- Pokemon.from_data: hp is computed as (base_hp * 2 * level/100) + level + 10
with Python true division (no floor), and current_hp is initialised to the
same expression.  The random move sample and the external data lookup are
replaced by explicit arguments carrying the looked-up values. -/
def Pokemon.from_data (name : String) (types : List String) (moves : List Move)
    (base_hp base_attack base_defense base_special_attack base_special_defense base_speed : ℕ)
    (level : ℕ) : Pokemon :=
  { name := name, level := level, types := types, moves := moves,
    hp := (base_hp : ℚ) * 2 * level / 100 + level + 10,
    attack := base_attack, defense := base_defense,
    special_attack := base_special_attack,
    special_defense := base_special_defense, speed := base_speed,
    current_hp := (base_hp : ℚ) * 2 * level / 100 + level + 10,
    status := none, stat_stages := zeroStages }

def Pokemon.is_fainted (p : Pokemon) : Bool :=
  decide (p.current_hp ≤ 0)

def Pokemon.take_damage (p : Pokemon) (damage : ℤ) : Pokemon :=
  { p with current_hp := max 0 (p.current_hp - (damage : ℚ)) }

def Pokemon.heal (p : Pokemon) (amount : ℤ) : Pokemon :=
  { p with current_hp := min p.hp (p.current_hp + (amount : ℚ)) }

structure Team where
  pokemon : List Pokemon
  battle_mode : BattleMode
  active_pokemon_indices : List ℕ
deriving DecidableEq

/-- The active Pokemon at a given position of the active-index list. -/
def Team.active_at (t : Team) (position : ℕ) : Pokemon :=
  t.pokemon.getD (t.active_pokemon_indices.getD position 0) defaultPokemon

def Team.active0 (t : Team) : Pokemon := t.active_at 0

def Team.active1 (t : Team) : Pokemon := t.active_at 1

/-- Team.switch_pokemon: guarded in-place update of the active index list.
Returns the updated team together with the Python boolean result. -/
def Team.switch_pokemon (t : Team) (position : ℕ) (new_index : ℕ) : Team × Bool :=
  if new_index < t.pokemon.length ∧ (position = 0 ∨ position = 1) then
    if (t.pokemon.getD new_index defaultPokemon).is_fainted = false
        ∧ new_index ∉ t.active_pokemon_indices then
      if t.battle_mode = BattleMode.SINGLE then
        ({ t with active_pokemon_indices := t.active_pokemon_indices.set 0 new_index }, true)
      else
        ({ t with active_pokemon_indices := t.active_pokemon_indices.set position new_index }, true)
    else (t, false)
  else (t, false)

def Team.get_available_switches (t : Team) : List ℕ :=
  (List.range t.pokemon.length).filter
    (fun i => (t.pokemon.getD i defaultPokemon).is_fainted = false
      ∧ i ∉ t.active_pokemon_indices)

def Team.is_defeated (t : Team) : Bool :=
  t.pokemon.all (fun p => p.is_fainted)

/-- Models writing back the mutated active Pokemon object at a slot. -/
def Team.set_active (t : Team) (position : ℕ) (p : Pokemon) : Team :=
  { t with pokemon := t.pokemon.set (t.active_pokemon_indices.getD position 0) p }

structure Battle where
  player_team : Team
  opponent_team : Team
  battle_mode : BattleMode
  turn_count : ℕ
  last_move_used : Option Move
deriving DecidableEq

def Battle.is_battle_over (b : Battle) : Bool :=
  b.player_team.is_defeated || b.opponent_team.is_defeated

/-- Battle.apply_stat_stages, with the stat as a rational (Python float
arithmetic) and the stage an integer. -/
def apply_stat_stages (stat : ℚ) (stage : ℤ) : ℚ :=
  if 0 < stage then stat * (2 + (stage : ℚ)) / 2
  else if stage < 0 then stat * 2 / (2 - (stage : ℚ))
  else stat

/-- Battle.calculate_damage.  tdata is the injected TYPES_DATA chart and
roll is the injected uniform damage roll. -/
def calculate_damage (tdata : String → String → ℚ) (attacker defender : Pokemon)
    (m : Move) (roll : ℚ) : ℤ :=
  let level : ℚ := attacker.level
  let attack0 : ℚ :=
    if m.damage_class = "physical" then attacker.attack else attacker.special_attack
  let defense0 : ℚ :=
    if m.damage_class = "physical" then defender.defense else defender.special_defense
  let attack : ℚ :=
    if m.damage_class = "physical" then
      apply_stat_stages attack0 attacker.stat_stages.attack
    else if m.damage_class = "special" then
      apply_stat_stages attack0 attacker.stat_stages.special_attack
    else attack0
  let defense : ℚ :=
    if m.damage_class = "physical" then
      apply_stat_stages defense0 defender.stat_stages.defense
    else if m.damage_class = "special" then
      apply_stat_stages defense0 defender.stat_stages.special_defense
    else defense0
  let damage1 : ℚ := (2 * level / 5 + 2) * (m.power : ℚ) * (attack / defense) / 50 + 2
  let damage2 : ℚ := damage1 * roll
  let damage3 : ℚ := defender.types.foldl (fun d ty => d * tdata m.type ty) damage2
  pyInt damage3

/-- Structured log of the battle prints: a switch announcement, a miss,
a successful move with its dealt damage, or a faint announcement. -/
inductive Event where
  | switched (side : String) (poke : String)
  | missed (attacker : String) (mv : String)
  | used (attacker : String) (mv : String) (damage : ℤ) (defender : String)
  | fainted (poke : String)
deriving DecidableEq

def Event.actor_name : Event → Option String
  | Event.missed a _ => some a
  | Event.used a _ _ _ => some a
  | _ => none

/-- Battle.execute_move in state-passing form: the updated defender, the
Python boolean result, and the emitted log events.  accRoll is the injected
uniform integer in 1..100 and dmgRoll the injected damage roll. -/
def execute_move (tdata : String → String → ℚ) (attacker defender : Pokemon)
    (accRoll : ℕ) (dmgRoll : ℚ) (m : Move) : Pokemon × Bool × List Event :=
  if m.accuracy < accRoll then
    (defender, false, [Event.missed attacker.name m.name])
  else
    let damage := calculate_damage tdata attacker defender m dmgRoll
    let defender2 := defender.take_damage damage
    (defender2, true,
      [Event.used attacker.name m.name damage defender.name]
        ++ (if defender2.is_fainted then [Event.fainted defender.name] else []))

/-- An action tuple: a move with its double-battle target position
(ignored in single battles), or a switch to a team index. -/
inductive Action where
  | move (m : Move) (target_position : ℕ)
  | switch (new_index : ℕ)
deriving DecidableEq

/-- A stream of injected (accuracy roll, damage roll) pairs, one pair
consumed per executed move; an exhausted stream yields (1, 1). -/
def rngNext (rng : List (ℕ × ℚ)) : (ℕ × ℚ) × List (ℕ × ℚ) :=
  match rng with
  | [] => ((1, 1), [])
  | r :: rs => (r, rs)

/-- The single-battle branch of Battle.execute_turn.  The turn counter is
incremented unconditionally, switches are applied first (their result
boolean is discarded and the announcement printed regardless), a
double-switch turn returns early, and otherwise the raw speed fields of
the two active Pokemon decide who moves first; the second mover only acts
if it is not fainted at that point. -/
def execute_turn_single (tdata : String → String → ℚ) (b : Battle)
    (player_action opponent_action : Action) (rng : List (ℕ × ℚ)) :
    Battle × List Event :=
  let b1 : Battle := { b with turn_count := b.turn_count + 1 }
  let step1 : Battle × List Event :=
    match player_action with
    | Action.switch i =>
        let pt := (b1.player_team.switch_pokemon 0 i).1
        ({ b1 with player_team := pt }, [Event.switched "player" pt.active0.name])
    | _ => (b1, [])
  let b2 := step1.1
  let step2 : Battle × List Event :=
    match opponent_action with
    | Action.switch i =>
        let ot := (b2.opponent_team.switch_pokemon 0 i).1
        ({ b2 with opponent_team := ot }, [Event.switched "opponent" ot.active0.name])
    | _ => (b2, [])
  let b3 := step2.1
  let evSwitch := step1.2 ++ step2.2
  match player_action, opponent_action with
  | Action.switch _, Action.switch _ => (b3, evSwitch)
  | _, _ =>
    let player_speed := b3.player_team.active0.speed
    let opponent_speed := b3.opponent_team.active0.speed
    if opponent_speed ≤ player_speed then
      let step3 : Battle × List Event × List (ℕ × ℚ) :=
        match player_action with
        | Action.move m _ =>
            let rr := rngNext rng
            let res := execute_move tdata b3.player_team.active0 b3.opponent_team.active0
              rr.1.1 rr.1.2 m
            ({ b3 with opponent_team := b3.opponent_team.set_active 0 res.1 },
              res.2.2, rr.2)
        | _ => (b3, [], rng)
      let b4 := step3.1
      let step4 : Battle × List Event :=
        match opponent_action with
        | Action.move m _ =>
            if b4.opponent_team.active0.is_fainted then (b4, [])
            else
              let rr := rngNext step3.2.2
              let res := execute_move tdata b4.opponent_team.active0 b4.player_team.active0
                rr.1.1 rr.1.2 m
              ({ b4 with player_team := b4.player_team.set_active 0 res.1 }, res.2.2)
        | _ => (b4, [])
      (step4.1, evSwitch ++ step3.2.1 ++ step4.2)
    else
      let step3 : Battle × List Event × List (ℕ × ℚ) :=
        match opponent_action with
        | Action.move m _ =>
            let rr := rngNext rng
            let res := execute_move tdata b3.opponent_team.active0 b3.player_team.active0
              rr.1.1 rr.1.2 m
            ({ b3 with player_team := b3.player_team.set_active 0 res.1 },
              res.2.2, rr.2)
        | _ => (b3, [], rng)
      let b4 := step3.1
      let step4 : Battle × List Event :=
        match player_action with
        | Action.move m _ =>
            if b4.player_team.active0.is_fainted then (b4, [])
            else
              let rr := rngNext step3.2.2
              let res := execute_move tdata b4.player_team.active0 b4.opponent_team.active0
                rr.1.1 rr.1.2 m
              ({ b4 with opponent_team := b4.opponent_team.set_active 0 res.1 }, res.2.2)
        | _ => (b4, [])
      (step4.1, evSwitch ++ step3.2.1 ++ step4.2)

/-- One entry of the double-battle execution list: the speed snapshot used
as the sort key, the owning side, the active slot, and the action. -/
structure TurnEntry where
  speed : ℕ
  isPlayer : Bool
  pos : ℕ
  act : Action
deriving DecidableEq

def insertBySpeed (x : TurnEntry) : List TurnEntry → List TurnEntry
  | [] => [x]
  | y :: ys => if y.speed ≤ x.speed then x :: y :: ys else y :: insertBySpeed x ys

/-- Stable descending sort on the speed key, the unique order produced by
the list sort with reverse=True in the source. -/
def sortBySpeedDesc (l : List TurnEntry) : List TurnEntry :=
  l.foldr insertBySpeed []

/-- The ordered execution list built by the double-battle branch: both
player slots then both opponent slots, stably sorted by raw speed. -/
def double_turn_order (pt ot : Team) (pa0 pa1 oa0 oa1 : Action) : List TurnEntry :=
  sortBySpeedDesc
    [ { speed := (pt.active_at 0).speed, isPlayer := true, pos := 0, act := pa0 },
      { speed := (pt.active_at 1).speed, isPlayer := true, pos := 1, act := pa1 },
      { speed := (ot.active_at 0).speed, isPlayer := false, pos := 0, act := oa0 },
      { speed := (ot.active_at 1).speed, isPlayer := false, pos := 1, act := oa1 } ]

/-- One step of the double-battle execution loop: a move executes only if
its target is not fainted (the acting Pokemon is never checked), a switch
entry does nothing here.  The attacker is re-read from the current state,
which coincides with the aliased object reference of the source. -/
def double_step (tdata : String → String → ℚ)
    (acc : Battle × List Event × List (ℕ × ℚ)) (e : TurnEntry) :
    Battle × List Event × List (ℕ × ℚ) :=
  match e.act with
  | Action.move m tpos =>
      let bb := acc.1
      let target_team := if e.isPlayer then bb.opponent_team else bb.player_team
      let target := target_team.active_at tpos
      if target.is_fainted then acc
      else
        let attacker := (if e.isPlayer then bb.player_team else bb.opponent_team).active_at e.pos
        let rr := rngNext acc.2.2
        let res := execute_move tdata attacker target rr.1.1 rr.1.2 m
        let bb2 :=
          if e.isPlayer then { bb with opponent_team := bb.opponent_team.set_active tpos res.1 }
          else { bb with player_team := bb.player_team.set_active tpos res.1 }
        (bb2, acc.2.1 ++ res.2.2, rr.2)
  | _ => acc

/-- The double-battle branch of Battle.execute_turn: turn counter bump,
sequential switch handling per slot for both sides, then execution of the
speed-sorted entry list. -/
def execute_turn_double (tdata : String → String → ℚ) (b : Battle)
    (pa0 pa1 oa0 oa1 : Action) (rng : List (ℕ × ℚ)) : Battle × List Event :=
  let b1 : Battle := { b with turn_count := b.turn_count + 1 }
  let doSwitch : Team → String → ℕ → Action → Team × List Event :=
    fun t side i a =>
      match a with
      | Action.switch idx =>
          let t2 := (t.switch_pokemon i idx).1
          (t2, [Event.switched side (t2.active_at i).name])
      | _ => (t, [])
  let s0 := doSwitch b1.player_team "player" 0 pa0
  let s1 := doSwitch s0.1 "player" 1 pa1
  let s2 := doSwitch b1.opponent_team "opponent" 0 oa0
  let s3 := doSwitch s2.1 "opponent" 1 oa1
  let b2 : Battle := { b1 with player_team := s1.1, opponent_team := s3.1 }
  let entries := double_turn_order s1.1 s3.1 pa0 pa1 oa0 oa1
  let fin := entries.foldl (double_step tdata)
    (b2, s0.2 ++ s1.2 ++ s2.2 ++ s3.2, rng)
  (fin.1, fin.2.1)

/-- Adversary._get_type_effectiveness: straight chart lookup. -/
def get_type_effectiveness (tdata : String → String → ℚ) (attack_type defender_type : String) : ℚ :=
  tdata attack_type defender_type

/-- Adversary._has_type_advantage: some move of the Pokemon has a
multiplier strictly above 1 against some listed opponent type. -/
def has_type_advantage (tdata : String → String → ℚ) (p : Pokemon)
    (opponent_types : List String) : Bool :=
  p.moves.any (fun m =>
    opponent_types.any (fun t => decide (1 < get_type_effectiveness tdata m.type t)))

/-- Adversary._should_switch, single-battle branch.  The teammate test in
the loop compares whole Pokemon values (the dataclass equality of the
source), not team indices. -/
def should_switch_single (tdata : String → String → ℚ) (team opponent_team : Team) : Bool :=
  let current := team.active0
  let opp := opponent_team.active0
  if current.current_hp / current.hp < 3 / 10 then true
  else
    team.pokemon.any (fun p =>
      !(p == current) && (!p.is_fainted && has_type_advantage tdata p opp.types))

/-- Adversary._should_switch, double-battle branch.  Health is tested for
both active slots; the teammate loop compares each Pokemon against the
active-Pokemon list, a comparison between different runtime types that is
always unequal in the source, so every non-fainted team member is
considered (active or not). -/
def should_switch_double (tdata : String → String → ℚ) (team opponent_team : Team) : Bool :=
  if (team.active0.current_hp / team.active0.hp < 3 / 10)
      ∨ (team.active1.current_hp / team.active1.hp < 3 / 10) then true
  else
    let opponent_types := opponent_team.active0.types ++ opponent_team.active1.types
    team.pokemon.any (fun p =>
      !p.is_fainted && has_type_advantage tdata p opponent_types)

/-- Adversary._choose_best_move: fold keeping the first move whose
estimated damage strictly exceeds the best so far (starting from 0 with no
move); a Pokemon with power 0 estimates 0; if no move scores, fall back to
an injected uniform choice among the moves. -/
def choose_best_move (tdata : String → String → ℚ) (attacker defender : Pokemon)
    (pick : ℕ) : Move :=
  let best := attacker.moves.foldl
    (fun (acc : Option Move × ℚ) m =>
      let effectiveness := defender.types.foldl
        (fun e t => e * get_type_effectiveness tdata m.type t) 1
      let estimated := if m.power = 0 then 0 else (m.power : ℚ) * effectiveness
      if acc.2 < estimated then (some m, estimated) else acc)
    (none, 0)
  match best.1 with
  | some m => m
  | none => attacker.moves.getD (pick % attacker.moves.length) defaultMove

/-- Adversary._choose_single_action.  pickSwitch and pickMove are the two
injected uniform choices (switch target and fallback move). -/
def choose_single_action (tdata : String → String → ℚ) (team opponent_team : Team)
    (pickSwitch pickMove : ℕ) : Action :=
  let moveBranch : Action :=
    Action.move (choose_best_move tdata team.active0 opponent_team.active0 pickMove) 0
  if should_switch_single tdata team opponent_team then
    let available := team.get_available_switches
    if available ≠ [] then
      Action.switch (available.getD (pickSwitch % available.length) 0)
    else moveBranch
  else moveBranch

/-- Adversary._choose_double_actions: per active slot, the whole-team
switch test, a fresh read of the unchanged available list, and an injected
choice; the move branch always scores against opponent active slot 0 and
picks an injected random target.  The third tuple component 0 attached to
a switch in the source is never read and is dropped here. -/
def choose_double_actions (tdata : String → String → ℚ) (team opponent_team : Team)
    (pick0 pick1 tgt0 tgt1 : ℕ) : List Action :=
  let slot : Pokemon → ℕ → ℕ → Action := fun p pick tgt =>
    if should_switch_double tdata team opponent_team then
      let available := team.get_available_switches
      if available ≠ [] then
        Action.switch (available.getD (pick % available.length) 0)
      else Action.move (choose_best_move tdata p opponent_team.active0 pick) tgt
    else Action.move (choose_best_move tdata p opponent_team.active0 pick) tgt
  [ slot team.active0 pick0 tgt0, slot team.active1 pick1 tgt1 ]

/-
Concrete fixtures used by the evaluation theorems below.
-/

/-- A trivial type chart in which every matchup multiplies by 1. -/
def flatChart : String → String → ℚ := fun _ _ => 1

def growl : Move :=
  { name := "growl", type := "normal", power := 0, accuracy := 100, pp := 40,
    damage_class := "status" }

def tackle : Move :=
  { name := "tackle", type := "normal", power := 50, accuracy := 100, pp := 35,
    damage_class := "physical" }

def mkPoke (name : String) (types : List String) (moves : List Move)
    (hp : ℚ) (atk dfn spa spd spe : ℕ) (cur : ℚ) : Pokemon :=
  { name := name, level := 50, types := types, moves := moves, hp := hp,
    attack := atk, defense := dfn, special_attack := spa, special_defense := spd,
    speed := spe, current_hp := cur, status := none, stat_stages := zeroStages }

def simplePoke : Pokemon := mkPoke "abra" ["psychic"] [tackle, growl] 100 100 100 60 60 50 100

def simpleFoe : Pokemon := mkPoke "machop" ["fighting"] [tackle] 200 100 100 60 60 100 200

/-
Helper lemmas shared by several claim theorems.
-/

/-- The multiplier applied to a stat by a given stage. -/
def stageMult (stage : ℤ) : ℚ :=
  if 0 < stage then (2 + (stage : ℚ)) / 2
  else if stage < 0 then 2 / (2 - (stage : ℚ))
  else 1

theorem apply_stat_stages_eq_mul (stat : ℚ) (stage : ℤ) :
    apply_stat_stages stat stage = stat * stageMult stage := by
  unfold apply_stat_stages stageMult
  split_ifs with h1 h2
  · rw [mul_div_assoc]
  · rw [mul_div_assoc]
  · rw [mul_one]

theorem stageMult_mono {s t : ℤ} (hst : s ≤ t) : stageMult s ≤ stageMult t := by
  have hcast : (s : ℚ) ≤ (t : ℚ) := by exact_mod_cast hst
  unfold stageMult
  rcases lt_trichotomy 0 s with hs | hs | hs
  · have ht : 0 < t := lt_of_lt_of_le hs hst
    rw [if_pos hs, if_pos ht]
    have h2 : (0 : ℚ) < 2 := by norm_num
    rw [div_le_div_iff h2 h2]
    nlinarith
  · subst hs
    rw [if_neg (lt_irrefl 0), if_neg (by omega : ¬ (0 : ℤ) < 0)]
    rcases lt_trichotomy 0 t with ht | ht | ht
    · rw [if_pos ht]
      have htq : (0 : ℚ) < (t : ℚ) := by exact_mod_cast ht
      rw [le_div_iff (by norm_num : (0:ℚ) < 2)]
      linarith
    · subst ht; simp
    · omega
  · rw [if_neg (by omega : ¬ (0 : ℤ) < s), if_pos hs]
    have hsq : (s : ℚ) < 0 := by exact_mod_cast hs
    have hds : (0 : ℚ) < 2 - (s : ℚ) := by linarith
    rcases lt_trichotomy 0 t with ht | ht | ht
    · rw [if_pos ht]
      have htq : (0 : ℚ) < (t : ℚ) := by exact_mod_cast ht
      have left1 : (2 : ℚ) / (2 - (s : ℚ)) ≤ 1 := by
        rw [div_le_one hds]; linarith
      have right1 : (1 : ℚ) ≤ (2 + (t : ℚ)) / 2 := by
        rw [le_div_iff (by norm_num : (0:ℚ) < 2)]; linarith
      linarith
    · subst ht
      rw [if_neg (lt_irrefl 0), if_neg (by omega : ¬ (0 : ℤ) < 0)]
      rw [div_le_one hds]; linarith
    · rw [if_neg (by omega : ¬ (0 : ℤ) < t), if_pos ht]
      have htq : (t : ℚ) < 0 := by exact_mod_cast ht
      have hdt : (0 : ℚ) < 2 - (t : ℚ) := by linarith
      rw [div_le_div_iff hds hdt]
      nlinarith

theorem stageMult_nonneg (s : ℤ) : 0 ≤ stageMult s := by
  unfold stageMult
  split_ifs with h1 h2
  · have : (0 : ℚ) < (s : ℚ) := by exact_mod_cast h1
    positivity
  · have : (s : ℚ) < 0 := by exact_mod_cast h2
    have : (0 : ℚ) < 2 - (s : ℚ) := by linarith
    positivity
  · norm_num

theorem apply_stat_stages_nonneg (stat : ℚ) (s : ℤ) (h : 0 ≤ stat) :
    0 ≤ apply_stat_stages stat s := by
  rw [apply_stat_stages_eq_mul]
  exact mul_nonneg h (stageMult_nonneg s)

theorem pyInt_nonneg (q : ℚ) (h : 0 ≤ q) : 0 ≤ pyInt q := by
  unfold pyInt
  rw [if_neg (not_lt.mpr h)]
  exact Int.floor_nonneg.mpr h

theorem foldl_mul_nonneg (f : String → ℚ) (hf : ∀ t, 0 ≤ f t) :
    ∀ (l : List String) (d : ℚ), 0 ≤ d → 0 ≤ l.foldl (fun acc t => acc * f t) d := by
  intro l
  induction l with
  | nil => intro d hd; simpa using hd
  | cons t ts ih =>
      intro d hd
      simpa using ih (d * f t) (mul_nonneg hd (hf t))

theorem calculate_damage_nonneg (tdata : String → String → ℚ)
    (attacker defender : Pokemon) (m : Move) (roll : ℚ)
    (hroll : 0 ≤ roll) (hchart : ∀ a b, 0 ≤ tdata a b) :
    0 ≤ calculate_damage tdata attacker defender m roll := by
  simp only [calculate_damage]
  apply pyInt_nonneg
  apply foldl_mul_nonneg _ (fun t => hchart m.type t)
  apply mul_nonneg _ hroll
  have hA : (0 : ℚ) ≤
      (if m.damage_class = "physical" then
        apply_stat_stages (if m.damage_class = "physical" then (attacker.attack : ℚ)
          else (attacker.special_attack : ℚ)) attacker.stat_stages.attack
      else if m.damage_class = "special" then
        apply_stat_stages (if m.damage_class = "physical" then (attacker.attack : ℚ)
          else (attacker.special_attack : ℚ)) attacker.stat_stages.special_attack
      else (if m.damage_class = "physical" then (attacker.attack : ℚ)
          else (attacker.special_attack : ℚ))) := by
    split_ifs <;> first
      | positivity
      | · apply apply_stat_stages_nonneg
          positivity
  have hD : (0 : ℚ) ≤
      (if m.damage_class = "physical" then
        apply_stat_stages (if m.damage_class = "physical" then (defender.defense : ℚ)
          else (defender.special_defense : ℚ)) defender.stat_stages.defense
      else if m.damage_class = "special" then
        apply_stat_stages (if m.damage_class = "physical" then (defender.defense : ℚ)
          else (defender.special_defense : ℚ)) defender.stat_stages.special_defense
      else (if m.damage_class = "physical" then (defender.defense : ℚ)
          else (defender.special_defense : ℚ))) := by
    split_ifs <;> first
      | positivity
      | · apply apply_stat_stages_nonneg
          positivity
  apply add_nonneg _ (by norm_num)
  apply div_nonneg _ (by norm_num)
  apply mul_nonneg (mul_nonneg (by positivity) (by positivity))
  exact div_nonneg hA hD

/-- The health invariant of a single Pokemon. -/
def health_invariant (p : Pokemon) : Prop :=
  0 ≤ p.current_hp ∧ p.current_hp ≤ p.hp

theorem take_damage_invariant (p : Pokemon) (dmg : ℤ)
    (h : health_invariant p) (hd : 0 ≤ dmg) :
    health_invariant (p.take_damage dmg) := by
  obtain ⟨h0, h1⟩ := h
  have hdq : (0 : ℚ) ≤ (dmg : ℚ) := by exact_mod_cast hd
  constructor
  · exact le_max_left _ _
  · simp only [Pokemon.take_damage]
    exact max_le (le_trans h0 h1) (by linarith)

theorem heal_invariant (p : Pokemon) (amt : ℤ)
    (h : health_invariant p) (ha : 0 ≤ amt) :
    health_invariant (p.heal amt) := by
  obtain ⟨h0, h1⟩ := h
  have haq : (0 : ℚ) ≤ (amt : ℚ) := by exact_mod_cast ha
  constructor
  · simp only [Pokemon.heal]
    exact le_min (by linarith) (by linarith)
  · exact min_le_left _ _

theorem execute_move_invariant (tdata : String → String → ℚ)
    (attacker defender : Pokemon) (accR : ℕ) (roll : ℚ) (m : Move)
    (h : health_invariant defender) (hroll : 0 ≤ roll)
    (hchart : ∀ a b, 0 ≤ tdata a b) :
    health_invariant (execute_move tdata attacker defender accR roll m).1 := by
  simp only [execute_move]
  split
  · exact h
  · exact take_damage_invariant _ _ h
      (calculate_damage_nonneg tdata attacker defender m roll hroll hchart)

/-
Claim theorems.
-/

/-- Claim C9.  For a fixed non-negative raw stat and stages s ≤ t in
[-6, 6], Battle.apply_stat_stages is monotonically non-decreasing in the
stage. -/
theorem claim9_stage_scaling_monotone (stat : ℚ) (s t : ℤ)
    (hstat : 0 ≤ stat) (hs : -6 ≤ s) (hst : s ≤ t) (ht : t ≤ 6) :
    apply_stat_stages stat s ≤ apply_stat_stages stat t := by
  rw [apply_stat_stages_eq_mul, apply_stat_stages_eq_mul]
  exact mul_le_mul_of_nonneg_left (stageMult_mono hst) hstat

/-- Witness for claim C9 at stat 100 and stages -2 and 3. -/
theorem claim9_witness :
    apply_stat_stages 100 (-2) ≤ apply_stat_stages 100 3 :=
  claim9_stage_scaling_monotone 100 (-2) 3 (by norm_num) (by decide) (by decide) (by decide)

/-- Claim C7.  Every health-mutating operation (Pokemon.take_damage,
Pokemon.heal, and the damage application inside Battle.execute_move)
preserves 0 ≤ current_hp ≤ hp for the affected Pokemon, for every starting
state satisfying the invariant, every non-negative damage and heal amount,
every non-negative damage roll and every non-negative type chart. -/
theorem claim7_health_invariant (p q attacker : Pokemon) (dmg amt : ℤ)
    (tdata : String → String → ℚ) (m : Move) (accR : ℕ) (roll : ℚ)
    (hp : health_invariant p) (hq : health_invariant q)
    (hd : 0 ≤ dmg) (ha : 0 ≤ amt) (hroll : 0 ≤ roll)
    (hchart : ∀ a b, 0 ≤ tdata a b) :
    health_invariant (p.take_damage dmg) ∧ health_invariant (p.heal amt)
      ∧ health_invariant (execute_move tdata attacker q accR roll m).1 :=
  ⟨take_damage_invariant p dmg hp hd, heal_invariant p amt hp ha,
    execute_move_invariant tdata attacker q accR roll m hq hroll hchart⟩

/-- Witness for claim C7 on concrete Pokemon, damage 5, heal 7, and a hit
with the physical move tackle. -/
theorem claim7_witness :
    health_invariant (simplePoke.take_damage 5) ∧ health_invariant (simplePoke.heal 7)
      ∧ health_invariant (execute_move flatChart simplePoke simpleFoe 1 1 tackle).1 :=
  claim7_health_invariant simplePoke simpleFoe simplePoke 5 7 flatChart tackle 1 1
    (by constructor <;> norm_num [simplePoke, mkPoke])
    (by constructor <;> norm_num [simpleFoe, mkPoke])
    (by decide) (by decide) (by norm_num) (fun _ _ => by norm_num [flatChart])

/-- Claim C2.  The claim states that a move whose damage class is status
always yields damage 0, skipping the whole pipeline.  Evaluating
Battle.calculate_damage at a status move of power 0, a neutral chart and a
damage roll of 1 yields 2, not 0: the base formula contributes its
constant +2 and the code never special-cases the status class. -/
theorem claim2_status_move_damage :
    calculate_damage flatChart simplePoke simpleFoe growl 1 = 2 ∧ (2 : ℤ) ≠ 0 := by
  refine ⟨?_, by decide⟩
  simp only [calculate_damage, apply_stat_stages, pyInt, flatChart, simplePoke,
    simpleFoe, growl, mkPoke, List.foldl_cons, List.foldl_nil]
  norm_num

/-- Claim C5.  The claim states the derived max health is the integer
floor(base_hp * 2 * level / 100) + level + 10.  At base hp 45 and level 33
the floored formula gives 29 + 33 + 10 = 72, but Pokemon.from_data uses
exact (float) division and stores 727/10 = 72.7 in both hp and
current_hp, so the stored value is not that integer. -/
theorem claim5_hp_formula_not_floored :
    (Pokemon.from_data "spearow" ["flying"] [] 45 60 30 31 31 70 33).hp = 727 / 10
    ∧ (Pokemon.from_data "spearow" ["flying"] [] 45 60 30 31 31 70 33).current_hp = 727 / 10
    ∧ ⌊(45 : ℚ) * 2 * 33 / 100⌋ + 33 + 10 = 72
    ∧ (727 / 10 : ℚ) ≠ 72 := by
  refine ⟨?_, ?_, ?_, ?_⟩
  · simp only [Pokemon.from_data]; norm_num
  · simp only [Pokemon.from_data]; norm_num
  · have h : ⌊(45 : ℚ) * 2 * 33 / 100⌋ = 29 := by
      rw [Int.floor_eq_iff]; norm_num
    rw [h]; decide
  · norm_num

/-- The single-battle turn always increments the turn counter by one,
whatever the submitted actions: the increment happens before any
inspection of the actions. -/
theorem execute_turn_single_turn_count (tdata : String → String → ℚ) (b : Battle)
    (pa oa : Action) (rng : List (ℕ × ℚ)) :
    (execute_turn_single tdata b pa oa rng).1.turn_count = b.turn_count + 1 := by
  cases pa <;> cases oa <;>
    simp only [execute_turn_single, execute_move] <;>
    (repeat' split) <;> rfl

theorem double_step_turn_count (tdata : String → String → ℚ)
    (acc : Battle × List Event × List (ℕ × ℚ)) (e : TurnEntry) :
    (double_step tdata acc e).1.turn_count = acc.1.turn_count := by
  rcases hact : e.act with _ | _ <;>
    simp only [double_step, hact] <;>
    (repeat' split) <;> rfl

theorem foldl_double_step_turn_count (tdata : String → String → ℚ)
    (l : List TurnEntry) :
    ∀ acc : Battle × List Event × List (ℕ × ℚ),
      ((l.foldl (double_step tdata) acc).1.turn_count = acc.1.turn_count) := by
  induction l with
  | nil => intro acc; rfl
  | cons e es ih =>
      intro acc
      rw [List.foldl_cons, ih (double_step tdata acc e), double_step_turn_count]

/-- The double-battle turn also always increments the turn counter. -/
theorem execute_turn_double_turn_count (tdata : String → String → ℚ) (b : Battle)
    (pa0 pa1 oa0 oa1 : Action) (rng : List (ℕ × ℚ)) :
    (execute_turn_double tdata b pa0 pa1 oa0 oa1 rng).1.turn_count = b.turn_count + 1 := by
  simp only [execute_turn_double]
  rw [foldl_double_step_turn_count]

/-
Fixtures: two full six-member teams and a single battle between them.
-/

def benchPoke : Pokemon := mkPoke "rattata" ["normal"] [tackle] 80 40 40 40 40 40 80

def teamA : Team :=
  { pokemon := [simplePoke, benchPoke, benchPoke, benchPoke, benchPoke, benchPoke],
    battle_mode := BattleMode.SINGLE, active_pokemon_indices := [0] }

def teamB : Team :=
  { pokemon := [simpleFoe, benchPoke, benchPoke, benchPoke, benchPoke, benchPoke],
    battle_mode := BattleMode.SINGLE, active_pokemon_indices := [0] }

def battle1 : Battle :=
  { player_team := teamA, opponent_team := teamB,
    battle_mode := BattleMode.SINGLE, turn_count := 0, last_move_used := none }

/-- Claim C1, counterexample.  Both sides submit a Switch whose target
index 0 is already active, an invalid action per the claim; the claim
demands the turn be aborted with an error and the turn counter left
unchanged, but executing the turn increments the counter from 0 to 1 (the
teams themselves are silently left as they were and no error value exists
anywhere in the engine). -/
theorem claim1_counterexample :
    0 ∈ battle1.player_team.active_pokemon_indices
    ∧ (execute_turn_single flatChart battle1 (Action.switch 0) (Action.switch 0) []).1.turn_count = 1
    ∧ battle1.turn_count = 0
    ∧ (execute_turn_single flatChart battle1 (Action.switch 0) (Action.switch 0) []).1.player_team
        = battle1.player_team
    ∧ (execute_turn_single flatChart battle1 (Action.switch 0) (Action.switch 0) []).1.opponent_team
        = battle1.opponent_team := by
  refine ⟨by norm_num [battle1, teamA], ?_, rfl, ?_, ?_⟩ <;>
    norm_num [execute_turn_single, Team.switch_pokemon, Pokemon.is_fainted,
      battle1, teamA, teamB, simplePoke, simpleFoe, mkPoke]

/-- An invalid switch target in the sense of the claim: out of range,
fainted, or already active. -/
def invalid_switch_target (t : Team) (i : ℕ) : Prop :=
  t.pokemon.length ≤ i
    ∨ (t.pokemon.getD i defaultPokemon).is_fainted = true
    ∨ i ∈ t.active_pokemon_indices

theorem switch_pokemon_invalid_noop (t : Team) (pos i : ℕ)
    (h : invalid_switch_target t i) :
    t.switch_pokemon pos i = (t, false) := by
  simp only [Team.switch_pokemon]
  rcases h with h | h | h
  · rw [if_neg (by omega : ¬(i < t.pokemon.length ∧ (pos = 0 ∨ pos = 1)))]
  · split_ifs with h1 h2 h3 <;> first
      | rfl
      | exact Bool.noConfusion (h2.1.symm.trans h)
  · split_ifs with h1 h2 h3 <;> first
      | rfl
      | exact absurd h h2.2

/-- Claim C1, amended.  Battle.execute_turn performs no validation and
surfaces no error: a Switch with an invalid target (out-of-range, fainted
or already-active index) is silently ignored by Team.switch_pokemon,
which returns false and leaves the team unchanged, and a single-battle
turn in which both sides submit such invalid switches changes nothing at
all except incrementing the turn counter, while still logging the
unconditional switch announcements. -/
theorem claim1_amended (tdata : String → String → ℚ) (b : Battle) (i j : ℕ)
    (rng : List (ℕ × ℚ))
    (hi : invalid_switch_target b.player_team i)
    (hj : invalid_switch_target b.opponent_team j) :
    execute_turn_single tdata b (Action.switch i) (Action.switch j) rng =
      ({ b with turn_count := b.turn_count + 1 },
        [Event.switched "player" b.player_team.active0.name,
         Event.switched "opponent" b.opponent_team.active0.name]) := by
  simp only [execute_turn_single, switch_pokemon_invalid_noop _ _ _ hi,
    switch_pokemon_invalid_noop _ _ _ hj, List.cons_append, List.nil_append]

/-- Witness for the amended claim C1 at the concrete battle and the
already-active target 0 on both sides. -/
theorem claim1_witness :
    execute_turn_single flatChart battle1 (Action.switch 0) (Action.switch 0) [] =
      ({ battle1 with turn_count := battle1.turn_count + 1 },
        [Event.switched "player" battle1.player_team.active0.name,
         Event.switched "opponent" battle1.opponent_team.active0.name]) :=
  claim1_amended flatChart battle1 0 0 []
    (by norm_num [invalid_switch_target, battle1, teamA])
    (by norm_num [invalid_switch_target, battle1, teamB])

/-
Properties of the stable descending speed sort.
-/

theorem insertBySpeed_perm (x : TurnEntry) (l : List TurnEntry) :
    (insertBySpeed x l).Perm (x :: l) := by
  induction l with
  | nil => exact List.Perm.refl _
  | cons y ys ih =>
      simp only [insertBySpeed]
      split_ifs with h
      · exact List.Perm.refl _
      · exact (ih.cons y).trans (List.Perm.swap x y ys)

theorem sortBySpeedDesc_perm (l : List TurnEntry) : (sortBySpeedDesc l).Perm l := by
  induction l with
  | nil => exact List.Perm.refl _
  | cons a l ih =>
      simp only [sortBySpeedDesc, List.foldr_cons]
      exact (insertBySpeed_perm a _).trans (ih.cons a)

theorem insertBySpeed_sorted (x : TurnEntry) (l : List TurnEntry)
    (h : l.Sorted (fun a b => b.speed ≤ a.speed)) :
    (insertBySpeed x l).Sorted (fun a b => b.speed ≤ a.speed) := by
  induction l with
  | nil => simp [insertBySpeed]
  | cons y ys ih =>
      rw [List.sorted_cons] at h
      simp only [insertBySpeed]
      split_ifs with hxy
      · rw [List.sorted_cons]
        refine ⟨?_, List.sorted_cons.mpr h⟩
        intro z hz
        rcases List.mem_cons.mp hz with rfl | hz
        · exact hxy
        · exact le_trans (h.1 z hz) hxy
      · rw [List.sorted_cons]
        refine ⟨?_, ih h.2⟩
        intro z hz
        rcases List.mem_cons.mp ((insertBySpeed_perm x ys).mem_iff.mp hz) with rfl | hzy
        · exact le_of_lt (not_le.mp hxy)
        · exact h.1 z hzy

theorem sortBySpeedDesc_sorted (l : List TurnEntry) :
    (sortBySpeedDesc l).Sorted (fun a b => b.speed ≤ a.speed) := by
  induction l with
  | nil => simp [sortBySpeedDesc]
  | cons a l ih =>
      simp only [sortBySpeedDesc, List.foldr_cons]
      exact insertBySpeed_sorted a _ ih

theorem filter_insertBySpeed (x : TurnEntry) (l : List TurnEntry) (k : ℕ) :
    (insertBySpeed x l).filter (fun e => e.speed == k) =
      if x.speed = k then x :: l.filter (fun e => e.speed == k)
      else l.filter (fun e => e.speed == k) := by
  induction l with
  | nil =>
      simp only [insertBySpeed, List.filter_cons, List.filter_nil]
      by_cases hx : x.speed = k <;> simp [hx]
  | cons y ys ih =>
      simp only [insertBySpeed]
      by_cases hxy : y.speed ≤ x.speed
      · rw [if_pos hxy, List.filter_cons]
        by_cases hx : x.speed = k <;> simp [hx]
      · rw [if_neg hxy, List.filter_cons, List.filter_cons]
        by_cases hy : y.speed = k <;> by_cases hx : x.speed = k
        · exact absurd (by omega : y.speed ≤ x.speed) hxy
        · simp [hy, hx, ih]
        · simp [hy, hx, ih]
        · simp [hy, hx, ih]

/-- Elements with any fixed speed key keep their submission order through
the sort: the stability property of the list sort in the source. -/
theorem sortBySpeedDesc_stable (l : List TurnEntry) (k : ℕ) :
    (sortBySpeedDesc l).filter (fun e => e.speed == k)
      = l.filter (fun e => e.speed == k) := by
  induction l with
  | nil => rfl
  | cons a l ih =>
      show (insertBySpeed a (sortBySpeedDesc l)).filter _ = _
      rw [filter_insertBySpeed, List.filter_cons]
      by_cases ha : a.speed = k <;> simp [ha, ih]

/-- In a single battle in which both sides submit Move actions, the first
logged action of the turn belongs to the side whose active Pokemon has the
larger raw speed field, the player on ties; stat stages play no part. -/
theorem execute_turn_single_first_mover (tdata : String → String → ℚ) (b : Battle)
    (pm om : Move) (tp tq : ℕ) (rng : List (ℕ × ℚ)) :
    ((execute_turn_single tdata b (Action.move pm tp) (Action.move om tq) rng).2.head?.bind
        Event.actor_name)
      = some (if b.opponent_team.active0.speed ≤ b.player_team.active0.speed
              then b.player_team.active0.name
              else b.opponent_team.active0.name) := by
  by_cases h : b.opponent_team.active0.speed ≤ b.player_team.active0.speed
  · simp only [execute_turn_single, execute_move]
    simp [h]
    split_ifs <;> simp [Event.actor_name]
  · simp only [execute_turn_single, execute_move]
    simp [h]
    split_ifs <;> simp [Event.actor_name]

/-- The player active Pokemon of the C3 counterexample: raw speed 50 but
speed stage +6, so its stage-scaled speed is 200. -/
def stagedPoke : Pokemon :=
  { mkPoke "speedy" ["normal"] [tackle] 100 100 100 60 60 50 100 with
      stat_stages := { zeroStages with speed := 6 } }

/-- The opponent active Pokemon of the C3 counterexample: raw speed 60,
no stages, so its stage-scaled speed is 60. -/
def slowFoe : Pokemon := mkPoke "slowish" ["normal"] [tackle] 100 100 100 60 60 60 100

def teamC : Team :=
  { pokemon := [stagedPoke, benchPoke, benchPoke, benchPoke, benchPoke, benchPoke],
    battle_mode := BattleMode.SINGLE, active_pokemon_indices := [0] }

def teamD : Team :=
  { pokemon := [slowFoe, benchPoke, benchPoke, benchPoke, benchPoke, benchPoke],
    battle_mode := BattleMode.SINGLE, active_pokemon_indices := [0] }

def battle3 : Battle :=
  { player_team := teamC, opponent_team := teamD,
    battle_mode := BattleMode.SINGLE, turn_count := 0, last_move_used := none }

/-- Claim C3, counterexample.  The player active Pokemon has the strictly
larger stage-scaled speed (200 against 60), so per the claim it must move
first; but the code compares raw speed fields (50 against 60) and the
opponent acts first. -/
theorem claim3_counterexample :
    apply_stat_stages (battle3.opponent_team.active0.speed : ℚ)
        battle3.opponent_team.active0.stat_stages.speed
      < apply_stat_stages (battle3.player_team.active0.speed : ℚ)
        battle3.player_team.active0.stat_stages.speed
    ∧ ((execute_turn_single flatChart battle3 (Action.move tackle 0) (Action.move tackle 0)
          [(1, 1), (1, 1)]).2.head?.bind Event.actor_name) = some "slowish"
    ∧ battle3.player_team.active0.name = "speedy"
    ∧ battle3.opponent_team.active0.name = "slowish" := by
  refine ⟨?_, ?_, rfl, rfl⟩
  · norm_num [apply_stat_stages, battle3, teamC, teamD, Team.active0, Team.active_at,
      stagedPoke, slowFoe, mkPoke, zeroStages]
  · rw [execute_turn_single_first_mover]
    norm_num [battle3, teamC, teamD, Team.active0, Team.active_at, stagedPoke, slowFoe, mkPoke]

/-- Claim C3, amended.  Turn order is decided by the raw speed field with
no stat-stage scaling: in a single battle the first logged actor is the
side with the larger raw speed (player on ties), and the double-battle
execution list is the stable descending sort on the raw speed key, which
is sorted, a permutation of the submission list, and stable (entries of
any fixed speed keep their submission order). -/
theorem claim3_amended :
    (∀ (tdata : String → String → ℚ) (b : Battle) (pm om : Move) (tp tq : ℕ)
        (rng : List (ℕ × ℚ)),
      ((execute_turn_single tdata b (Action.move pm tp) (Action.move om tq) rng).2.head?.bind
          Event.actor_name)
        = some (if b.opponent_team.active0.speed ≤ b.player_team.active0.speed
                then b.player_team.active0.name
                else b.opponent_team.active0.name))
    ∧ (∀ l : List TurnEntry, (sortBySpeedDesc l).Sorted (fun a c => c.speed ≤ a.speed))
    ∧ (∀ l : List TurnEntry, (sortBySpeedDesc l).Perm l)
    ∧ (∀ (l : List TurnEntry) (k : ℕ),
        (sortBySpeedDesc l).filter (fun e => e.speed == k)
          = l.filter (fun e => e.speed == k)) :=
  ⟨execute_turn_single_first_mover, sortBySpeedDesc_sorted, sortBySpeedDesc_perm,
    sortBySpeedDesc_stable⟩

/-
Claim C4 fixtures: a double battle in which the fast opponent lead can
knock out the player lead before it acts.
-/

def abra : Pokemon := mkPoke "abra" ["psychic"] [tackle] 100 100 100 60 60 50 20

def bidoof : Pokemon := mkPoke "bidoof" ["normal"] [tackle] 100 40 40 40 40 5 100

def machamp : Pokemon := mkPoke "machamp" ["fighting"] [tackle] 200 100 100 60 60 100 200

def geodude : Pokemon := mkPoke "geodude" ["rock"] [tackle] 100 40 40 40 40 1 100

def teamE : Team :=
  { pokemon := [abra, bidoof, benchPoke, benchPoke, benchPoke, benchPoke],
    battle_mode := BattleMode.DOUBLE, active_pokemon_indices := [0, 1] }

def teamF : Team :=
  { pokemon := [machamp, geodude, benchPoke, benchPoke, benchPoke, benchPoke],
    battle_mode := BattleMode.DOUBLE, active_pokemon_indices := [0, 1] }

def battle4 : Battle :=
  { player_team := teamE, opponent_team := teamF,
    battle_mode := BattleMode.DOUBLE, turn_count := 0, last_move_used := none }

/-- Claim C4.  The claim says a Pokemon that fainted earlier in the same
turn never acts.  In the double-battle branch the execution loop only
checks that the TARGET of a move is not fainted, never the acting
Pokemon: machamp (speed 100) knocks abra (speed 50, 20 hp, taking 24
damage) down to 0, the fainted log entry appears, and fainted abra then
still executes its own move, dealing 24 damage to machamp.  The trace
shows the fainted announcement strictly before the fainted actor's own
move. -/
theorem claim4_fainted_actor_still_acts :
    (execute_turn_double flatChart battle4 (Action.move tackle 0) (Action.switch 0)
        (Action.move tackle 0) (Action.switch 0) [(1, 1), (1, 1)]).2
      = [Event.switched "player" "bidoof", Event.switched "opponent" "geodude",
         Event.used "machamp" "tackle" 24 "abra", Event.fainted "abra",
         Event.used "abra" "tackle" 24 "machamp"]
    ∧ (execute_turn_double flatChart battle4 (Action.move tackle 0) (Action.switch 0)
        (Action.move tackle 0) (Action.switch 0) [(1, 1), (1, 1)]).1.player_team.active0.current_hp = 0
    ∧ (execute_turn_double flatChart battle4 (Action.move tackle 0) (Action.switch 0)
        (Action.move tackle 0) (Action.switch 0) [(1, 1), (1, 1)]).1.opponent_team.active0.current_hp = 176 := by
  refine ⟨?_, ?_, ?_⟩ <;>
    norm_num [execute_turn_double, double_turn_order, sortBySpeedDesc, insertBySpeed,
      double_step, execute_move, calculate_damage, apply_stat_stages, pyInt, rngNext,
      Team.active_at, Team.active0, Team.set_active, Team.switch_pokemon,
      Pokemon.is_fainted, Pokemon.take_damage, Event.actor_name,
      battle4, teamE, teamF, abra, bidoof, machamp, geodude, benchPoke, tackle,
      flatChart, mkPoke, zeroStages]

/-
Claim C8 fixtures: an electric attacker super-effective against a water
opponent, with an identical twin on the bench.
-/

def thunderbolt : Move :=
  { name := "thunderbolt", type := "electric", power := 90, accuracy := 100, pp := 15,
    damage_class := "special" }

/-- A chart in which electric is super-effective against water and every
other matchup is neutral. -/
def eleChart : String → String → ℚ :=
  fun a d => if a = "electric" ∧ d = "water" then 2 else 1

def pikachu : Pokemon := mkPoke "pikachu" ["electric"] [thunderbolt] 100 55 40 50 50 90 100

def squirtle : Pokemon := mkPoke "squirtle" ["water"] [tackle] 100 48 65 50 64 43 100

def faintedBug : Pokemon := mkPoke "caterpie" ["bug"] [tackle] 80 30 30 30 30 30 0

def teamG : Team :=
  { pokemon := [pikachu, pikachu, faintedBug, faintedBug, faintedBug, faintedBug],
    battle_mode := BattleMode.SINGLE, active_pokemon_indices := [0] }

def teamH : Team :=
  { pokemon := [squirtle, benchPoke, benchPoke, benchPoke, benchPoke, benchPoke],
    battle_mode := BattleMode.SINGLE, active_pokemon_indices := [0] }

/-- Claim C8, counterexample.  The benched team member at index 1 is
non-fainted, non-active, and has a super-effective move against the
water-typed opponent, and a legal switch target exists ([1]); the claim
demands a Switch.  But the teammate loop compares Pokemon by value (the
dataclass equality of the source), and the benched twin is field-equal to
the active Pokemon, so it is skipped and the adversary returns a Move
action instead. -/
theorem claim8_counterexample :
    teamG.get_available_switches = [1]
    ∧ (teamG.pokemon.getD 1 defaultPokemon).is_fainted = false
    ∧ 1 ∉ teamG.active_pokemon_indices
    ∧ has_type_advantage eleChart (teamG.pokemon.getD 1 defaultPokemon)
        teamH.active0.types = true
    ∧ choose_single_action eleChart teamG teamH 0 0 = Action.move thunderbolt 0 := by
  refine ⟨?_, ?_, ?_, ?_, ?_⟩ <;>
    norm_num [choose_single_action, should_switch_single, choose_best_move,
      has_type_advantage, get_type_effectiveness, Team.get_available_switches,
      Team.active0, Team.active_at, Pokemon.is_fainted, eleChart,
      teamG, teamH, pikachu, squirtle, faintedBug, benchPoke, thunderbolt, tackle,
      mkPoke, zeroStages, List.range, List.range.loop]

/-- Claim C8, amended.  Same switch rule, but the teammate that triggers
condition (b) must differ from the active Pokemon as a whole value (the
source compares dataclass equality, not bench position): if the active
Pokemon is below 30 percent health, or some non-fainted team member that
is not value-equal to the active one has a super-effective move against
the opponent active types, and a legal switch target exists, the adversary
returns a Switch to one of the non-fainted, non-active indices. -/
theorem claim8_amended (tdata : String → String → ℚ) (team opponent_team : Team)
    (pickSwitch pickMove : ℕ)
    (htrigger :
      team.active0.current_hp / team.active0.hp < 3 / 10
        ∨ ∃ p ∈ team.pokemon, p ≠ team.active0 ∧ p.is_fainted = false
            ∧ has_type_advantage tdata p opponent_team.active0.types = true)
    (havail : team.get_available_switches ≠ []) :
    ∃ idx ∈ team.get_available_switches,
      choose_single_action tdata team opponent_team pickSwitch pickMove
        = Action.switch idx := by
  have hs : should_switch_single tdata team opponent_team = true := by
    simp only [should_switch_single]
    rcases htrigger with h | ⟨p, hmem, hne, hnf, hadv⟩
    · rw [if_pos h]
    · split_ifs with hh
      · rfl
      · rw [List.any_eq_true]
        refine ⟨p, hmem, ?_⟩
        simp [hnf, hadv, hne]
  have hlen : 0 < team.get_available_switches.length := List.length_pos.mpr havail
  have hmod : pickSwitch % team.get_available_switches.length
      < team.get_available_switches.length := Nat.mod_lt _ hlen
  refine ⟨team.get_available_switches.getD
    (pickSwitch % team.get_available_switches.length) 0, ?_, ?_⟩
  · rw [List.getD_eq_getElem _ _ hmod]
    exact List.getElem_mem hmod
  · unfold choose_single_action
    rw [hs]
    simp only [if_true]
    rw [if_pos havail]

/-- A healthy team whose lead sits at 20 percent health, triggering the
low-health switch condition. -/
def lowPoke : Pokemon := mkPoke "weakmon" ["normal"] [tackle] 100 50 50 50 50 50 20

def teamI : Team :=
  { pokemon := [lowPoke, benchPoke, benchPoke, benchPoke, benchPoke, benchPoke],
    battle_mode := BattleMode.SINGLE, active_pokemon_indices := [0] }

/-- Witness for the amended claim C8: the low-health lead forces a switch
to one of the available bench indices. -/
theorem claim8_witness :
    ∃ idx ∈ teamI.get_available_switches,
      choose_single_action flatChart teamI teamH 0 0 = Action.switch idx :=
  claim8_amended flatChart teamI teamH 0 0
    (Or.inl (by norm_num [teamI, Team.active0, Team.active_at, lowPoke, mkPoke]))
    (by norm_num [Team.get_available_switches, teamI, lowPoke, benchPoke,
      Pokemon.is_fainted, mkPoke, List.range, List.range.loop]
        <;> exact List.cons_ne_nil _ _)

/-- A double-arity team whose slot-0 lead is at 20 percent health and
whose only legal switch target is index 2. -/
def teamJ : Team :=
  { pokemon := [lowPoke, bidoof, squirtle, faintedBug, faintedBug, faintedBug],
    battle_mode := BattleMode.DOUBLE, active_pokemon_indices := [0, 1] }

/-- Claim C10.  In double arity the switch test is a whole-team predicate
(no slot argument) and the available-switch list is recomputed from the
unchanged team between the two slot decisions, so both slots can choose a
Switch to the same roster index: at this reachable state the adversary
returns Switch 2 for both slots. -/
theorem claim10_double_switch_same_target :
    choose_double_actions flatChart teamJ teamF 0 0 0 0
        = [Action.switch 2, Action.switch 2]
    ∧ teamJ.get_available_switches = [2]
    ∧ teamJ.active_pokemon_indices = [0, 1] := by
  refine ⟨?_, ?_, rfl⟩ <;>
    norm_num [choose_double_actions, should_switch_double, choose_best_move,
      has_type_advantage, get_type_effectiveness, Team.get_available_switches,
      Team.active0, Team.active1, Team.active_at, Pokemon.is_fainted, flatChart,
      teamJ, teamF, lowPoke, bidoof, squirtle, faintedBug, machamp, geodude,
      benchPoke, tackle, mkPoke, zeroStages, List.range, List.range.loop]

/-- A fully fainted opponent Pokemon. -/
def faintedFoe : Pokemon := mkPoke "machop" ["fighting"] [tackle] 200 100 100 60 60 100 0

def teamBDown : Team :=
  { pokemon := [faintedFoe, faintedFoe, faintedFoe, faintedFoe, faintedFoe, faintedFoe],
    battle_mode := BattleMode.SINGLE, active_pokemon_indices := [0] }

/-- A battle in the terminal state: every opponent Pokemon is fainted. -/
def battleOverB : Battle :=
  { player_team := teamA, opponent_team := teamBDown,
    battle_mode := BattleMode.SINGLE, turn_count := 7, last_move_used := none }

/-- Claim C6, counterexample.  In a state where the opponent roster is
fully defeated (is_battle_over is true), the claim demands that a further
call to execute_turn signal BattleAlreadyOver with no state change; but
the call is accepted and the turn counter advances from 7 to 8. -/
theorem claim6_counterexample :
    Battle.is_battle_over battleOverB = true
    ∧ (execute_turn_single flatChart battleOverB (Action.switch 0) (Action.switch 0) []).1.turn_count = 8
    ∧ battleOverB.turn_count = 7 := by
  refine ⟨?_, ?_, rfl⟩
  · norm_num [Battle.is_battle_over, Team.is_defeated, Pokemon.is_fainted,
      battleOverB, teamBDown, teamA, faintedFoe, simplePoke, benchPoke, mkPoke]
  · rw [execute_turn_single_turn_count]; rfl

/-- Claim C6, amended.  Battle.is_battle_over does report the terminal
condition, but execute_turn performs no terminal-state check and the
engine defines no BattleAlreadyOver signal: a call made after a team is
defeated is accepted and executes normally, in particular incrementing
the turn counter, in both battle modes. -/
theorem claim6_amended (tdata : String → String → ℚ) (b : Battle)
    (pa oa pa0 pa1 oa0 oa1 : Action) (rng rng2 : List (ℕ × ℚ))
    (hover : b.is_battle_over = true) :
    (execute_turn_single tdata b pa oa rng).1.turn_count = b.turn_count + 1
    ∧ (execute_turn_double tdata b pa0 pa1 oa0 oa1 rng2).1.turn_count = b.turn_count + 1 :=
  ⟨execute_turn_single_turn_count tdata b pa oa rng,
    execute_turn_double_turn_count tdata b pa0 pa1 oa0 oa1 rng2⟩

/-- Witness for the amended claim C6 at the defeated-opponent battle. -/
theorem claim6_witness :
    (execute_turn_single flatChart battleOverB (Action.switch 0) (Action.switch 0) []).1.turn_count
        = battleOverB.turn_count + 1
    ∧ (execute_turn_double flatChart battleOverB (Action.switch 0) (Action.switch 0)
        (Action.switch 0) (Action.switch 0) []).1.turn_count = battleOverB.turn_count + 1 :=
  claim6_amended flatChart battleOverB (Action.switch 0) (Action.switch 0) (Action.switch 0)
    (Action.switch 0) (Action.switch 0) (Action.switch 0) [] []
    (by norm_num [Battle.is_battle_over, Team.is_defeated, Pokemon.is_fainted,
      battleOverB, teamBDown, teamA, faintedFoe, simplePoke, benchPoke, mkPoke])

end PB
